import Mathlib

/-!
Shallow embedding of `pysvf/ae/abstract_state.py`: the interval domain,
the address-set domain, the tagged abstract value, and the dual-store
abstract state, together with theorems checking the specification's
claims against these definitions.

Conventions of the embedding:
* Python `None` bounds of an interval become `Option Int` with `none`.
* Python `set` of addresses becomes `Finset Nat`.
* Python `dict` becomes an association list `List (Nat × AbstractValue)`
  with Python-dict assignment semantics (`dictSet`: update in place keeps
  the entry position, a new key is appended).  Python dicts have no
  duplicate keys; theorems that need this take a `Nodup` hypothesis.
* Methods that can raise (`AbstractValue.join`/`meet` raise `ValueError`,
  `store`/`load` assert) return `Except String _`.
* `AbstractState.bottom`/`top` copy the dicts with Python's shallow
  `dict.copy()` and then mutate the shared `IntervalValue` objects in
  place; to capture that object identity the functions are modelled with
  an explicit object heap (`AVHeap`, `AbstractStateRef`, `bottomRef`,
  `topRef`), where a state holds references into the heap.
-/

/-- `IntervalValue`: a pair of optional bounds; `none` is ±infinity. -/
structure IntervalValue where
  lb : Option Int
  ub : Option Int
deriving DecidableEq

/-- `IntervalValue.top()`: the interval `[-∞, +∞]`. -/
def IntervalValue.top : IntervalValue := ⟨none, none⟩

/-- `IntervalValue.bottom()`: the canonical invalid pair `[1, 0]`. -/
def IntervalValue.bottom : IntervalValue := ⟨some 1, some 0⟩

/-- `is_top`: both bounds are `None`. -/
def IntervalValue.is_top (v : IntervalValue) : Bool :=
  v.lb.isNone && v.ub.isNone

/-- `is_bottom`: both bounds finite and `lb > ub`. -/
def IntervalValue.is_bottom (v : IntervalValue) : Bool :=
  match v.lb, v.ub with
  | some l, some u => decide (l > u)
  | _, _ => false

/-- `set_to_top` writes `(None, None)` into the object (pure view). -/
def IntervalValue.set_to_top (_v : IntervalValue) : IntervalValue :=
  ⟨none, none⟩

/-- `set_to_bottom` writes `(1, 0)` into the object (pure view). -/
def IntervalValue.set_to_bottom (_v : IntervalValue) : IntervalValue :=
  ⟨some 1, some 0⟩

/-- `contain(other)`: `self ⊒ other` test of `IntervalValue.contain`. -/
def IntervalValue.contain (self other : IntervalValue) : Bool :=
  if self.is_bottom then false
  else if other.is_bottom then true
  else
    (match self.lb, other.lb with
     | none, _ => true
     | some _, none => false
     | some a, some b => decide (a ≤ b)) &&
    (match self.ub, other.ub with
     | none, _ => true
     | some _, none => false
     | some a, some b => decide (a ≥ b))

/-- `join(other)`: least upper bound; a bottom operand is absorbed. -/
def IntervalValue.join (self other : IntervalValue) : IntervalValue :=
  if self.is_bottom then ⟨other.lb, other.ub⟩
  else if other.is_bottom then ⟨self.lb, self.ub⟩
  else
    ⟨match self.lb, other.lb with
     | none, _ => none
     | _, none => none
     | some a, some b => some (min a b),
     match self.ub, other.ub with
     | none, _ => none
     | _, none => none
     | some a, some b => some (max a b)⟩

/-- `meet(other)`: greatest lower bound; bottom if empty. -/
def IntervalValue.meet (self other : IntervalValue) : IntervalValue :=
  if self.is_bottom || other.is_bottom then IntervalValue.bottom
  else
    let new_lb : Option Int :=
      match self.lb, other.lb with
      | none, b => b
      | some a, none => some a
      | some a, some b => some (max a b)
    let new_ub : Option Int :=
      match self.ub, other.ub with
      | none, b => b
      | some a, none => some a
      | some a, some b => some (min a b)
    match new_lb, new_ub with
    | some l, some u =>
      if l > u then IntervalValue.bottom else ⟨some l, some u⟩
    | _, _ => ⟨new_lb, new_ub⟩

/-- `widening(other)`: a bound that grew strictly past self's bound in the
widening direction jumps to unbounded; a bottom operand is absorbed. -/
def IntervalValue.widening (self other : IntervalValue) : IntervalValue :=
  if self.is_bottom then ⟨other.lb, other.ub⟩
  else if other.is_bottom then ⟨self.lb, self.ub⟩
  else
    ⟨match self.lb, other.lb with
     | none, _ => none
     | some _, none => none
     | some a, some b => if b < a then none else some a,
     match self.ub, other.ub with
     | none, _ => none
     | some _, none => none
     | some a, some b => if b > a then none else some a⟩

/-- `narrowing(other)`: replace an unbounded side of self by other's
finite bound on that side; bottom on either operand yields bottom. -/
def IntervalValue.narrowing (self other : IntervalValue) : IntervalValue :=
  if self.is_bottom || other.is_bottom then IntervalValue.bottom
  else
    ⟨match self.lb, other.lb with
     | none, some b => some b
     | a, _ => a,
     match self.ub, other.ub with
     | none, some b => some b
     | a, _ => a⟩

/-- `equals(other)`: both bottom, or both non-bottom with equal bounds. -/
def IntervalValue.equals (self other : IntervalValue) : Bool :=
  if self.is_bottom && other.is_bottom then true
  else if self.is_bottom || other.is_bottom then false
  else self.lb == other.lb && self.ub == other.ub

/-- `AddressValue`: a set of object identifiers. -/
structure AddressValue where
  addrs : Finset Nat
deriving DecidableEq

/-- `_ADDR_HIGH_BYTE = 0x7F000000`. -/
def AddressValue.ADDR_HIGH_BYTE : Nat := 0x7F000000

/-- `_ADDR_MASK = 0xFF000000`. -/
def AddressValue.ADDR_MASK : Nat := 0xFF000000

/-- `getVirtualMemAddress(idx) = _ADDR_HIGH_BYTE | idx`. -/
def AddressValue.getVirtualMemAddress (idx : Nat) : Nat :=
  AddressValue.ADDR_HIGH_BYTE ||| idx

/-- `isVirtualMemAddress(val) = (val & _ADDR_MASK) == _ADDR_HIGH_BYTE`. -/
def AddressValue.isVirtualMemAddress (val : Nat) : Bool :=
  (val &&& AddressValue.ADDR_MASK) == AddressValue.ADDR_HIGH_BYTE

/-- `getInternalID(idx)`: Python computes `idx & ~_ADDR_MASK` on an
unbounded non-negative int, which clears exactly the mask bits; for a
natural number that is `idx ^^^ (idx &&& _ADDR_MASK)`. -/
def AddressValue.getInternalID (idx : Nat) : Nat :=
  if AddressValue.isVirtualMemAddress idx then
    idx ^^^ (idx &&& AddressValue.ADDR_MASK)
  else idx

/-- `get_addrs`. -/
def AddressValue.get_addrs (v : AddressValue) : Finset Nat := v.addrs

/-- `AddressValue.join`: set union. -/
def AddressValue.join (self other : AddressValue) : AddressValue :=
  ⟨self.addrs ∪ other.addrs⟩

/-- `AddressValue.meet`: set intersection. -/
def AddressValue.meet (self other : AddressValue) : AddressValue :=
  ⟨self.addrs ∩ other.addrs⟩

/-- `AddressValue.equals`: set equality. -/
def AddressValue.equals (self other : AddressValue) : Bool :=
  self.addrs == other.addrs

/-- `AbstractValue`: tagged union over Interval / AddressSet.  The Python
class stores a tag from `AbstractValueType` plus the active field; a
freshly constructed untagged object (`_type = None`) never escapes the
factory and merge functions, so the embedding is a two-variant sum. -/
inductive AbstractValue where
  | interval (iv : IntervalValue)
  | address (av : AddressValue)
deriving DecidableEq

/-- `AbstractValue.createInterval(lb, ub)` (defaults are `None`). -/
def AbstractValue.createInterval (lb ub : Option Int) : AbstractValue :=
  .interval ⟨lb, ub⟩

/-- `AbstractValue.createAddress(addresses)`. -/
def AbstractValue.createAddress (s : Finset Nat) : AbstractValue :=
  .address ⟨s⟩

/-- `isInterval`. -/
def AbstractValue.isInterval : AbstractValue → Bool
  | .interval _ => true
  | .address _ => false

/-- `isAddr`. -/
def AbstractValue.isAddr : AbstractValue → Bool
  | .interval _ => false
  | .address _ => true

/-- `AbstractValue.join`: matching tags join pointwise; mismatched tags
raise `ValueError("Cannot join values of different types")`. -/
def AbstractValue.join (self other : AbstractValue) :
    Except String AbstractValue :=
  match self, other with
  | .interval i, .interval j => .ok (.interval (i.join j))
  | .address a, .address b => .ok (.address (a.join b))
  | _, _ => .error "Cannot join values of different types"

/-- `AbstractValue.meet`: matching tags meet pointwise; mismatched tags
raise `ValueError("Cannot meet values of different types")`. -/
def AbstractValue.meet (self other : AbstractValue) :
    Except String AbstractValue :=
  match self, other with
  | .interval i, .interval j => .ok (.interval (i.meet j))
  | .address a, .address b => .ok (.address (a.meet b))
  | _, _ => .error "Cannot meet values of different types"

/-- `AbstractValue.equals`: false across tags, else pointwise. -/
def AbstractValue.equals (self other : AbstractValue) : Bool :=
  match self, other with
  | .interval i, .interval j => i.equals j
  | .address a, .address b => a.equals b
  | _, _ => false

/-- A Python dict keyed by small integers, as an association list. -/
abbrev AVDict := List (Nat × AbstractValue)

/-- Dict lookup: `d[k]` / `d.get(k)`. -/
def dictLookup (d : AVDict) (k : Nat) : Option AbstractValue :=
  match d with
  | [] => none
  | (k', v) :: rest => if k' = k then some v else dictLookup rest k

/-- Dict membership: `k in d`. -/
def dictContains (d : AVDict) (k : Nat) : Bool :=
  (dictLookup d k).isSome

/-- Dict assignment `d[k] = v`: update in place keeps the entry position,
a new key is appended (Python dict insertion order). -/
def dictSet (d : AVDict) (k : Nat) (v : AbstractValue) : AVDict :=
  match d with
  | [] => [(k, v)]
  | (k', v') :: rest =>
    if k' = k then (k', v) :: rest else (k', v') :: dictSet rest k v

/-- `AbstractState`: variable store and object store. -/
structure AbstractState where
  varToAbsVal : AVDict
  addrToAbsVal : AVDict
deriving DecidableEq

/-- `__getitem__(var_id)`: the stored value, or a fresh default
`AbstractValue.createInterval()` (a top interval) when absent. -/
def AbstractState.getItem (s : AbstractState) (varId : Nat) : AbstractValue :=
  match dictLookup s.varToAbsVal varId with
  | some v => v
  | none => AbstractValue.createInterval none none

/-- One map of `joinWith`: the for-loop over `other`'s entries as
structural recursion on `other`, threading the mutated receiver; a
shared key is replaced by the pairwise `join` (a raise aborts the loop
and propagates), an absent key gets a fresh `AbstractValue` wrapping
`other`'s inner value (the same value content). -/
def dictJoin (self other : AVDict) : Except String AVDict :=
  match other with
  | [] => .ok self
  | kv :: rest =>
    match dictLookup self kv.1 with
    | some v =>
      match v.join kv.2 with
      | .ok nv => dictJoin (dictSet self kv.1 nv) rest
      | .error e => .error e
    | none => dictJoin (dictSet self kv.1 kv.2) rest

/-- `joinWith(other)`: mutates the receiver; modelled as returning the
updated state (or the propagated `ValueError`). -/
def AbstractState.joinWith (self other : AbstractState) :
    Except String AbstractState := do
  let v ← dictJoin self.varToAbsVal other.varToAbsVal
  let a ← dictJoin self.addrToAbsVal other.addrToAbsVal
  pure ⟨v, a⟩

/-- Per-entry step of `meetWith`: a key absent from `other` is removed;
matching interval tags meet (removed when the meet is bottom); matching
address tags intersect (removed when empty); mismatched tags fall
through both branches of the source, keeping the old value. -/
def meetEntry (other : AVDict) (kv : Nat × AbstractValue) :
    Option (Nat × AbstractValue) :=
  match dictLookup other kv.1 with
  | none => none
  | some w =>
    match kv.2, w with
    | .interval i, .interval j =>
      let ni := i.meet j
      if ni.is_bottom then none else some (kv.1, .interval ni)
    | .address a, .address b =>
      let na := a.meet b
      if na.addrs = ∅ then none else some (kv.1, .address na)
    | _, _ => some kv

/-- One map of `meetWith`: iterate the receiver's entries (the source
defers the removals until after the loop; the net content is this
filter-map). -/
def dictMeet (self other : AVDict) : AVDict :=
  self.filterMap (meetEntry other)

/-- `meetWith(other)`: mutates the receiver; modelled as returning the
updated state.  No code path of the source can raise here. -/
def AbstractState.meetWith (self other : AbstractState) : AbstractState :=
  ⟨dictMeet self.varToAbsVal other.varToAbsVal,
   dictMeet self.addrToAbsVal other.addrToAbsVal⟩

/-- Per-entry step of state `widening` for a key of `self`: a key also in
`other` with interval tags widens, with address tags joins, and with
mismatched tags falls through both branches of the source (no entry is
produced for it); a key of `self` only is copied. -/
def widenEntry (other : AVDict) (kv : Nat × AbstractValue) :
    Option (Nat × AbstractValue) :=
  match dictLookup other kv.1 with
  | none => some kv
  | some w =>
    match kv.2, w with
    | .interval i, .interval j => some (kv.1, .interval (i.widening j))
    | .address a, .address b => some (kv.1, .address (a.join b))
    | _, _ => none

/-- Per-entry step of state `narrowing`: like `widenEntry` with interval
narrowing and address intersection. -/
def narrowEntry (other : AVDict) (kv : Nat × AbstractValue) :
    Option (Nat × AbstractValue) :=
  match dictLookup other kv.1 with
  | none => some kv
  | some w =>
    match kv.2, w with
    | .interval i, .interval j => some (kv.1, .interval (i.narrowing j))
    | .address a, .address b => some (kv.1, .address (a.meet b))
    | _, _ => none

/-- One map of state `widening`: iterate the union of the key sets.  The
Python source iterates an unordered `set` of keys; the model fixes the
order (self's entries, then other's new entries), which has the same
per-key content. -/
def dictWiden (self other : AVDict) : AVDict :=
  self.filterMap (widenEntry other) ++
    other.filter fun kv => !(dictContains self kv.1)

/-- One map of state `narrowing`; see `dictWiden` for the ordering. -/
def dictNarrow (self other : AVDict) : AVDict :=
  self.filterMap (narrowEntry other) ++
    other.filter fun kv => !(dictContains self kv.1)

/-- `AbstractState.widening(other)`: a fresh result state. -/
def AbstractState.widening (self other : AbstractState) : AbstractState :=
  ⟨dictWiden self.varToAbsVal other.varToAbsVal,
   dictWiden self.addrToAbsVal other.addrToAbsVal⟩

/-- `AbstractState.narrowing(other)`: a fresh result state. -/
def AbstractState.narrowing (self other : AbstractState) : AbstractState :=
  ⟨dictNarrow self.varToAbsVal other.varToAbsVal,
   dictNarrow self.addrToAbsVal other.addrToAbsVal⟩

/-- `store(addr, val)`: asserts `isVirtualMemAddress(addr)` (the
`AssertionError("Not a virtual address")` is the error case); a null
object id (0) is a silent no-op; otherwise `objStore[obj_id] = val`. -/
def AbstractState.store (s : AbstractState) (addr : Nat)
    (val : AbstractValue) : Except String AbstractState :=
  if AddressValue.isVirtualMemAddress addr then
    if AddressValue.getInternalID addr = 0 then .ok s
    else
      .ok ⟨s.varToAbsVal,
           dictSet s.addrToAbsVal (AddressValue.getInternalID addr) val⟩
  else .error "Not a virtual address"

/-- `load(addr)`: asserts `isVirtualMemAddress(addr)`; returns the stored
value at the decoded object id, or a fresh default interval when
absent. -/
def AbstractState.load (s : AbstractState) (addr : Nat) :
    Except String AbstractValue :=
  if AddressValue.isVirtualMemAddress addr then
    match dictLookup s.addrToAbsVal (AddressValue.getInternalID addr) with
    | some v => .ok v
    | none => .ok (AbstractValue.createInterval none none)
  else .error "Not a virtual address"

/-!
Object-heap model for `AbstractState.bottom`/`top`.  In the source those
methods copy both dicts with `dict.copy()` — a shallow copy sharing the
`AbstractValue` objects — and then call `set_to_bottom`/`set_to_top`,
which mutate the shared objects in place.  Heap cells hold the contents
of `AbstractValue` objects; a state holds references (cell indices).
-/

/-- The heap of `AbstractValue` objects; a reference is a list index. -/
structure AVHeap where
  cells : List AbstractValue
deriving DecidableEq

/-- Dereference an `AbstractValue` reference. -/
def AVHeap.read (h : AVHeap) (r : Nat) : Option AbstractValue :=
  h.cells.get? r

/-- Overwrite the object behind a reference (in-place mutation). -/
def AVHeap.write (h : AVHeap) (r : Nat) (v : AbstractValue) : AVHeap :=
  ⟨h.cells.set r v⟩

/-- An abstract state under reference semantics: each dict maps a key to
a reference into the heap. -/
structure AbstractStateRef where
  varToAbsVal : List (Nat × Nat)
  addrToAbsVal : List (Nat × Nat)
deriving DecidableEq

/-- Dereference every entry of the variable store of a state. -/
def AbstractStateRef.readVar (h : AVHeap) (s : AbstractStateRef) :
    List (Nat × Option AbstractValue) :=
  s.varToAbsVal.map fun kr => (kr.1, h.read kr.2)

/-- `AbstractState.bottom()` under reference semantics: `dict.copy()`
shares all references with the receiver, then every interval-tagged
entry of the copy is mutated in place via `set_to_bottom`.  Returns the
heap after the call together with the constructed state. -/
def AbstractState.bottomRef (h : AVHeap) (s : AbstractStateRef) :
    AVHeap × AbstractStateRef :=
  let inv : AbstractStateRef := ⟨s.varToAbsVal, s.addrToAbsVal⟩
  let h' := inv.varToAbsVal.foldl
    (fun hh kr =>
      match hh.read kr.2 with
      | some (.interval iv) => hh.write kr.2 (.interval iv.set_to_bottom)
      | _ => hh)
    h
  (h', inv)

/-- `AbstractState.top()` under reference semantics, as `bottomRef` with
`set_to_top`. -/
def AbstractState.topRef (h : AVHeap) (s : AbstractStateRef) :
    AVHeap × AbstractStateRef :=
  let inv : AbstractStateRef := ⟨s.varToAbsVal, s.addrToAbsVal⟩
  let h' := inv.varToAbsVal.foldl
    (fun hh kr =>
      match hh.read kr.2 with
      | some (.interval iv) => hh.write kr.2 (.interval iv.set_to_top)
      | _ => hh)
    h
  (h', inv)

/-- Decidable equality for `Except`, used to evaluate the fallible
operations on concrete inputs. -/
instance {ε α : Type} [DecidableEq ε] [DecidableEq α] :
    DecidableEq (Except ε α) := fun a b =>
  match a, b with
  | .error e, .error f =>
    if h : e = f then .isTrue (congrArg Except.error h)
    else .isFalse fun hh => h (Except.error.inj hh)
  | .error _, .ok _ => .isFalse fun hh => Except.noConfusion hh
  | .ok _, .error _ => .isFalse fun hh => Except.noConfusion hh
  | .ok x, .ok y =>
    if h : x = y then .isTrue (congrArg Except.ok h)
    else .isFalse fun hh => h (Except.ok.inj hh)

/-! Helper lemmas about the dict operations. -/

theorem dictLookup_dictSet_self (d : AVDict) (k : Nat) (v : AbstractValue) :
    dictLookup (dictSet d k v) k = some v := by
  induction d with
  | nil => simp [dictSet, dictLookup]
  | cons kv rest ih =>
    obtain ⟨k', v'⟩ := kv
    by_cases h : k' = k
    · simp [dictSet, dictLookup, h]
    · simp [dictSet, dictLookup, h, ih]

theorem dictLookup_dictSet_of_ne (d : AVDict) (k' k : Nat)
    (v : AbstractValue) (h : k' ≠ k) :
    dictLookup (dictSet d k' v) k = dictLookup d k := by
  induction d with
  | nil => simp [dictSet, dictLookup, h]
  | cons kv rest ih =>
    obtain ⟨k'', v''⟩ := kv
    by_cases h2 : k'' = k' <;>
      simp [dictSet, dictLookup, h2, h, Ne.symm h, ih]

theorem dictLookup_append_of_none (l1 l2 : AVDict) (k : Nat)
    (h : dictLookup l1 k = none) :
    dictLookup (l1 ++ l2) k = dictLookup l2 k := by
  induction l1 with
  | nil => simp
  | cons kv rest ih =>
    obtain ⟨k', v'⟩ := kv
    by_cases h2 : k' = k
    · simp [dictLookup, h2] at h
    · simp only [dictLookup, h2, if_false, List.cons_append] at h ⊢
      simp [dictLookup, h2, ih h]

theorem dictLookup_eq_none_of_notMem (d : AVDict) (k : Nat)
    (h : k ∉ d.map Prod.fst) : dictLookup d k = none := by
  induction d with
  | nil => rfl
  | cons kv rest ih =>
    obtain ⟨k', v'⟩ := kv
    simp only [List.map_cons, List.mem_cons, not_or] at h
    have hne : ¬k' = k := fun hh => h.1 hh.symm
    simp [dictLookup, hne, ih h.2]

theorem dictLookup_filterMap_eq_none
    (f : Nat × AbstractValue → Option (Nat × AbstractValue))
    (hf : ∀ kv x, f kv = some x → x.1 = kv.1) (d : AVDict) (k : Nat)
    (hk : k ∉ d.map Prod.fst) : dictLookup (d.filterMap f) k = none := by
  induction d with
  | nil => rfl
  | cons kv rest ih =>
    simp only [List.map_cons, List.mem_cons, not_or] at hk
    rw [List.filterMap_cons]
    cases h : f kv with
    | none => exact ih hk.2
    | some x =>
      have hx : x.1 = kv.1 := hf kv x h
      obtain ⟨xk, xv⟩ := x
      simp only at hx
      have hne : ¬kv.1 = k := fun hh => hk.1 hh.symm
      simp [dictLookup, hx, hne, ih hk.2]

theorem dictLookup_filterMap_self
    (f : Nat × AbstractValue → Option (Nat × AbstractValue))
    (hf : ∀ kv x, f kv = some x → x.1 = kv.1) (d : AVDict) (k : Nat)
    (v x : AbstractValue) (h1 : dictLookup d k = some v)
    (h2 : f (k, v) = some (k, x)) :
    dictLookup (d.filterMap f) k = some x := by
  induction d with
  | nil => simp [dictLookup] at h1
  | cons kv rest ih =>
    obtain ⟨k', v'⟩ := kv
    by_cases hk : k' = k
    · subst hk
      simp [dictLookup] at h1
      subst h1
      rw [List.filterMap_cons, h2]
      simp [dictLookup]
    · simp only [dictLookup, hk, if_false] at h1
      rw [List.filterMap_cons]
      cases h : f (k', v') with
      | none => exact ih h1
      | some y =>
        have hy : y.1 = k' := hf (k', v') y h
        obtain ⟨yk, yv⟩ := y
        simp only at hy
        subst hy
        simp [dictLookup, hk, ih h1]

theorem dictLookup_filter_not_contains (self other : AVDict) (k : Nat)
    (h : dictContains self k = true) :
    dictLookup (other.filter fun kv => !(dictContains self kv.1)) k
      = none := by
  induction other with
  | nil => rfl
  | cons kv rest ih =>
    obtain ⟨k', v'⟩ := kv
    rw [List.filter_cons]
    by_cases hk : k' = k
    · subst hk
      simp [h, ih]
    · by_cases hc : dictContains self k' <;> simp [hc, dictLookup, hk, ih]

/-! Claim theorems. -/

/-- Claim C1 (counterexample): on `state1 = {1:[1,5]}` and
`state2 = {1:[3,10], 2:[15,20]}`, `joinWith` does yield
`{1:[1,10], 2:[15,20]}`, but `meetWith(state2)` starting from that
joined state does not map key 1 to `[3,5]`, and key 2 is not removed —
it stays (present in both operands with a non-bottom meet). -/
theorem claim1_counterexample :
    AbstractState.joinWith
        ⟨[(1, .interval ⟨some 1, some 5⟩)], []⟩
        ⟨[(1, .interval ⟨some 3, some 10⟩),
          (2, .interval ⟨some 15, some 20⟩)], []⟩
      = .ok ⟨[(1, .interval ⟨some 1, some 10⟩),
              (2, .interval ⟨some 15, some 20⟩)], []⟩
    ∧ dictLookup
        (AbstractState.meetWith
          ⟨[(1, .interval ⟨some 1, some 10⟩),
            (2, .interval ⟨some 15, some 20⟩)], []⟩
          ⟨[(1, .interval ⟨some 3, some 10⟩),
            (2, .interval ⟨some 15, some 20⟩)], []⟩).varToAbsVal 1
      ≠ some (.interval ⟨some 3, some 5⟩)
    ∧ dictLookup
        (AbstractState.meetWith
          ⟨[(1, .interval ⟨some 1, some 10⟩),
            (2, .interval ⟨some 15, some 20⟩)], []⟩
          ⟨[(1, .interval ⟨some 3, some 10⟩),
            (2, .interval ⟨some 15, some 20⟩)], []⟩).varToAbsVal 2
      ≠ none := by decide

/-- Claim C1 (amended): `state1.joinWith(state2)` yields
`{1:[1,10], 2:[15,20]}`; the subsequent `state1.meetWith(state2)`
starting from that joined state yields `{1:[3,10], 2:[15,20]}` — key 1
is the pairwise meet `[1,10] ⊓ [3,10] = [3,10]`, and key 2 is retained
because it is present in both operands with a non-bottom meet. -/
theorem claim1_join_meet_concrete :
    AbstractState.joinWith
        ⟨[(1, .interval ⟨some 1, some 5⟩)], []⟩
        ⟨[(1, .interval ⟨some 3, some 10⟩),
          (2, .interval ⟨some 15, some 20⟩)], []⟩
      = .ok ⟨[(1, .interval ⟨some 1, some 10⟩),
              (2, .interval ⟨some 15, some 20⟩)], []⟩
    ∧ AbstractState.meetWith
        ⟨[(1, .interval ⟨some 1, some 10⟩),
          (2, .interval ⟨some 15, some 20⟩)], []⟩
        ⟨[(1, .interval ⟨some 3, some 10⟩),
          (2, .interval ⟨some 15, some 20⟩)], []⟩
      = ⟨[(1, .interval ⟨some 3, some 10⟩),
          (2, .interval ⟨some 15, some 20⟩)], []⟩ := by decide

/-- Claim C2 (code bug): on the state `{1: Interval [1,5]}`, `bottom()`
returns a state holding the very same references as the receiver
(`dict.copy()` is shallow), and after the call the receiver's own entry
for key 1 reads as the bottom interval — the receiver is mutated, and
the result shares its mutable sub-values; `top()` likewise mutates the
receiver's entry to top. -/
theorem claim2_bottom_top_mutate_receiver :
    (AbstractState.bottomRef ⟨[.interval ⟨some 1, some 5⟩]⟩
        ⟨[(1, 0)], []⟩).2 = ⟨[(1, 0)], []⟩
    ∧ AbstractStateRef.readVar
        (AbstractState.bottomRef ⟨[.interval ⟨some 1, some 5⟩]⟩
          ⟨[(1, 0)], []⟩).1 ⟨[(1, 0)], []⟩
      = [(1, some (.interval ⟨some 1, some 0⟩))]
    ∧ AbstractStateRef.readVar ⟨[.interval ⟨some 1, some 5⟩]⟩
        ⟨[(1, 0)], []⟩
      = [(1, some (.interval ⟨some 1, some 5⟩))]
    ∧ AbstractStateRef.readVar
        (AbstractState.topRef ⟨[.interval ⟨some 1, some 5⟩]⟩
          ⟨[(1, 0)], []⟩).1 ⟨[(1, 0)], []⟩
      = [(1, some (.interval ⟨none, none⟩))] := by decide

/-- Claim C3 (counterexample): `bottom().contain(bottom())` is `false` —
the receiver-is-bottom check fires first, so bottom is not contained in
bottom, refuting "for every interval x (including bottom itself),
x.contain(bottom()) is true". -/
theorem claim3_counterexample :
    IntervalValue.contain IntervalValue.bottom IntervalValue.bottom
      = false := by decide

/-- Claim C3 (amended): a bottom receiver contains nothing (`contain`
returns false whenever self is bottom, bottom itself included); every
non-bottom interval contains bottom; for non-bottom operands,
containment holds iff on each side self is unbounded, or both sides are
finite and compare numerically (`self.lb ≤ other.lb`,
`self.ub ≥ other.ub`). -/
theorem claim3_contain_amended (x y : IntervalValue) :
    (x.is_bottom = true → x.contain y = false)
    ∧ (x.is_bottom = false → y.is_bottom = true → x.contain y = true)
    ∧ (x.is_bottom = false → y.is_bottom = false →
        (x.contain y = true ↔
          ((x.lb = none ∨ ∃ a b, x.lb = some a ∧ y.lb = some b ∧ a ≤ b)
           ∧ (x.ub = none ∨
              ∃ a b, x.ub = some a ∧ y.ub = some b ∧ b ≤ a)))) := by
  refine ⟨fun h => by simp [IntervalValue.contain, h],
          fun h1 h2 => by simp [IntervalValue.contain, h1, h2],
          fun h1 h2 => ?_⟩
  simp only [IntervalValue.contain, h1, h2, Bool.false_eq_true,
    if_false, Bool.and_eq_true]
  cases x.lb <;> cases y.lb <;> cases x.ub <;> cases y.ub <;>
    simp [ge_iff_le]

/-- Claim C3 witness: `[1,5].contain(bottom)` is true, via the amended
theorem. -/
theorem claim3_witness :
    IntervalValue.contain ⟨some 1, some 5⟩ IntervalValue.bottom
      = true :=
  (claim3_contain_amended ⟨some 1, some 5⟩ IntervalValue.bottom).2.1
    (by decide) (by decide)

/-- Claim C8: narrowing replaces a side only when self's side is
unbounded and other's is finite, keeps self's own bound otherwise
(never tightening an already finite side), yields bottom if either
operand is bottom, and `top.narrowing([1,5])` equals `[1,5]`. -/
theorem claim8_narrowing_conservative (a b : IntervalValue) :
    (a.is_bottom = false → b.is_bottom = false →
      (a.narrowing b).lb
          = (if a.lb = none ∧ b.lb ≠ none then b.lb else a.lb)
        ∧ (a.narrowing b).ub
          = (if a.ub = none ∧ b.ub ≠ none then b.ub else a.ub))
    ∧ (a.is_bottom = true ∨ b.is_bottom = true →
        (a.narrowing b).is_bottom = true)
    ∧ IntervalValue.equals
        (IntervalValue.narrowing IntervalValue.top ⟨some 1, some 5⟩)
        ⟨some 1, some 5⟩ = true := by
  refine ⟨fun ha hb => ?_, fun h => ?_, by decide⟩
  · simp only [IntervalValue.narrowing, ha, hb, Bool.or_self,
      Bool.false_eq_true, if_false]
    constructor
    · cases a.lb <;> cases b.lb <;> simp
    · cases a.ub <;> cases b.ub <;> simp
  · have hc : (a.is_bottom || b.is_bottom) = true := by
      rcases h with h | h <;> simp [h]
    have hb : a.narrowing b = IntervalValue.bottom := by
      simp [IntervalValue.narrowing, hc]
    rw [hb]
    decide

/-- Claim C8 witness: concrete instances of all three parts. -/
theorem claim8_witness :
    (IntervalValue.narrowing ⟨none, some 9⟩ ⟨some 1, some 5⟩).lb = some 1
    ∧ (IntervalValue.narrowing ⟨none, some 9⟩ ⟨some 1, some 5⟩).ub
        = some 9
    ∧ (IntervalValue.narrowing IntervalValue.bottom
        ⟨some 1, some 5⟩).is_bottom = true := by
  have h := claim8_narrowing_conservative ⟨none, some 9⟩ ⟨some 1, some 5⟩
  have h2 := (h.1 (by decide) (by decide))
  refine ⟨?_, ?_, ?_⟩
  · rw [h2.1]; decide
  · rw [h2.2]; decide
  · exact (claim8_narrowing_conservative IntervalValue.bottom
      ⟨some 1, some 5⟩).2.1 (Or.inl (by decide))

/-- Claim C6: `get` returns the stored value when present and a fresh
top interval when absent; `load` on a virtual address returns the object
store's value at the decoded id when present and a fresh top interval
when absent. -/
theorem claim6_absent_is_top (s : AbstractState) (varId addr : Nat) :
    (∀ v, dictLookup s.varToAbsVal varId = some v →
      s.getItem varId = v)
    ∧ (dictLookup s.varToAbsVal varId = none →
        s.getItem varId = .interval IntervalValue.top
        ∧ IntervalValue.top.is_top = true)
    ∧ (AddressValue.isVirtualMemAddress addr = true →
        (∀ v, dictLookup s.addrToAbsVal
            (AddressValue.getInternalID addr) = some v →
          s.load addr = .ok v)
        ∧ (dictLookup s.addrToAbsVal
            (AddressValue.getInternalID addr) = none →
            s.load addr = .ok (.interval IntervalValue.top))) := by
  refine ⟨fun v h => ?_, fun h => ⟨?_, by decide⟩, fun hv => ⟨?_, ?_⟩⟩
  · simp [AbstractState.getItem, h]
  · simp [AbstractState.getItem, h, AbstractValue.createInterval,
      IntervalValue.top]
  · intro v h
    simp [AbstractState.load, hv, h]
  · intro h
    simp [AbstractState.load, hv, h, AbstractValue.createInterval,
      IntervalValue.top]

/-- Claim C6 witness: a present variable, an absent variable, a present
object and an absent object. -/
theorem claim6_witness :
    AbstractState.getItem
        ⟨[(1, .interval ⟨some 1, some 5⟩)],
         [(2, .interval ⟨some 7, some 7⟩)]⟩ 1
      = .interval ⟨some 1, some 5⟩
    ∧ AbstractState.getItem
        ⟨[(1, .interval ⟨some 1, some 5⟩)],
         [(2, .interval ⟨some 7, some 7⟩)]⟩ 3
      = .interval IntervalValue.top
    ∧ AbstractState.load
        ⟨[(1, .interval ⟨some 1, some 5⟩)],
         [(2, .interval ⟨some 7, some 7⟩)]⟩
        (AddressValue.getVirtualMemAddress 2)
      = .ok (.interval ⟨some 7, some 7⟩)
    ∧ AbstractState.load
        ⟨[(1, .interval ⟨some 1, some 5⟩)],
         [(2, .interval ⟨some 7, some 7⟩)]⟩
        (AddressValue.getVirtualMemAddress 9)
      = .ok (.interval IntervalValue.top) := by
  refine ⟨(claim6_absent_is_top _ 1 0).1 _ (by decide),
          ((claim6_absent_is_top _ 3 0).2.1 (by decide)).1,
          ((claim6_absent_is_top _ 1
              (AddressValue.getVirtualMemAddress 2)).2.2
            (by decide)).1 _ (by decide),
          ((claim6_absent_is_top _ 1
              (AddressValue.getVirtualMemAddress 9)).2.2
            (by decide)).2 (by decide)⟩

/-- Claim C7: `store` fails on a non-virtual address, is a no-op on the
null object id, and otherwise writes the decoded object id in the
object store, leaving the variable store unchanged. -/
theorem claim7_store (s : AbstractState) (addr : Nat)
    (val : AbstractValue) :
    (AddressValue.isVirtualMemAddress addr = false →
      s.store addr val = .error "Not a virtual address")
    ∧ (AddressValue.isVirtualMemAddress addr = true →
        AddressValue.getInternalID addr = 0 →
        s.store addr val = .ok s)
    ∧ (AddressValue.isVirtualMemAddress addr = true →
        AddressValue.getInternalID addr ≠ 0 →
        ∃ s', s.store addr val = .ok s'
          ∧ s'.varToAbsVal = s.varToAbsVal
          ∧ ∀ k, dictLookup s'.addrToAbsVal k
              = if k = AddressValue.getInternalID addr then some val
                else dictLookup s.addrToAbsVal k) := by
  refine ⟨fun h => ?_, fun h h0 => ?_, fun h h0 => ?_⟩
  · simp [AbstractState.store, h]
  · simp [AbstractState.store, h, h0]
  · refine ⟨⟨s.varToAbsVal,
      dictSet s.addrToAbsVal (AddressValue.getInternalID addr) val⟩,
      by simp [AbstractState.store, h, h0], rfl, fun k => ?_⟩
    by_cases hk : k = AddressValue.getInternalID addr
    · subst hk
      simp [dictLookup_dictSet_self]
    · simp [hk, dictLookup_dictSet_of_ne _ _ _ _ (fun hh => hk hh.symm)]

/-- Claim C7 witness: a non-virtual address errors, the null-id virtual
address is a no-op, and a normal virtual address writes the object
store. -/
theorem claim7_witness :
    AbstractState.store ⟨[], []⟩ 5 (.interval ⟨some 4, some 4⟩)
      = .error "Not a virtual address"
    ∧ AbstractState.store ⟨[], []⟩ 0x7F000000
        (.interval ⟨some 4, some 4⟩) = .ok ⟨[], []⟩
    ∧ ∃ s', AbstractState.store ⟨[], []⟩ 0x7F00007B
          (.interval ⟨some 4, some 4⟩) = .ok s'
        ∧ s'.varToAbsVal = []
        ∧ dictLookup s'.addrToAbsVal 123
            = some (.interval ⟨some 4, some 4⟩) := by
  refine ⟨(claim7_store ⟨[], []⟩ 5 _).1 (by decide),
          (claim7_store ⟨[], []⟩ 0x7F000000 _).2.1 (by decide)
            (by decide), ?_⟩
  obtain ⟨s', h1, h2, h3⟩ :=
    (claim7_store ⟨[], []⟩ 0x7F00007B
      (.interval ⟨some 4, some 4⟩)).2.2 (by decide) (by decide)
  refine ⟨s', h1, h2, ?_⟩
  rw [h3 123]
  decide

/-! Bit-level lemmas for the virtual-address encoding. -/

theorem highByte_testBit (i : Nat) :
    Nat.testBit 0x7F000000 i = (decide (i ≥ 24) && decide (i - 24 < 7)) := by
  rw [show (0x7F000000 : Nat) = 0x7F <<< 24 by norm_num [Nat.shiftLeft_eq],
    Nat.testBit_shiftLeft, show (0x7F : Nat) = 2 ^ 7 - 1 by norm_num,
    Nat.testBit_two_pow_sub_one]

theorem maskByte_testBit (i : Nat) :
    Nat.testBit 0xFF000000 i = (decide (i ≥ 24) && decide (i - 24 < 8)) := by
  rw [show (0xFF000000 : Nat) = 0xFF <<< 24 by norm_num [Nat.shiftLeft_eq],
    Nat.testBit_shiftLeft, show (0xFF : Nat) = 2 ^ 8 - 1 by norm_num,
    Nat.testBit_two_pow_sub_one]

theorem lor_land_mask (id : Nat) (h : id < 2 ^ 24) :
    (0x7F000000 ||| id) &&& 0xFF000000 = 0x7F000000 := by
  apply Nat.eq_of_testBit_eq
  intro i
  rw [Nat.testBit_and, Nat.testBit_or, highByte_testBit, maskByte_testBit]
  by_cases h24 : i ≥ 24
  · have hid : Nat.testBit id i = false :=
      Nat.testBit_lt_two_pow
        (lt_of_lt_of_le h (Nat.pow_le_pow_right (by norm_num) h24))
    rw [hid]
    by_cases h7 : i - 24 < 7
    · have h8 : i - 24 < 8 := by omega
      simp [h24, h7, h8]
    · simp [h24, h7]
  · simp [h24]

theorem lor_xor_high (id : Nat) (h : id < 2 ^ 24) :
    (0x7F000000 ||| id) ^^^ 0x7F000000 = id := by
  apply Nat.eq_of_testBit_eq
  intro i
  rw [Nat.testBit_xor, Nat.testBit_or, highByte_testBit]
  by_cases h24 : i ≥ 24
  · have hid : Nat.testBit id i = false :=
      Nat.testBit_lt_two_pow
        (lt_of_lt_of_le h (Nat.pow_le_pow_right (by norm_num) h24))
    rw [hid]
    simp
  · simp [h24]

/-- Claim C9: for every id in the reserved 24-bit id space, decoding the
encoded virtual address gives the id back and the encoded address passes
the virtual-address check; decoding a non-virtual value is the
identity. -/
theorem claim9_address_round_trip (id v : Nat) :
    (id < 2 ^ 24 →
      AddressValue.getInternalID (AddressValue.getVirtualMemAddress id)
          = id
        ∧ AddressValue.isVirtualMemAddress
            (AddressValue.getVirtualMemAddress id) = true)
    ∧ (AddressValue.isVirtualMemAddress v = false →
        AddressValue.getInternalID v = v) := by
  refine ⟨fun h => ?_,
    fun h => by simp [AddressValue.getInternalID, h]⟩
  have hv : AddressValue.isVirtualMemAddress
      (AddressValue.getVirtualMemAddress id) = true := by
    simp only [AddressValue.isVirtualMemAddress,
      AddressValue.getVirtualMemAddress, AddressValue.ADDR_HIGH_BYTE,
      AddressValue.ADDR_MASK]
    rw [lor_land_mask id h]
    simp
  refine ⟨?_, hv⟩
  rw [AddressValue.getInternalID, if_pos hv]
  simp only [AddressValue.getVirtualMemAddress,
    AddressValue.ADDR_HIGH_BYTE, AddressValue.ADDR_MASK]
  rw [lor_land_mask id h, lor_xor_high id h]

/-- Claim C9 witness: the round trip at id 123 and the identity on the
non-virtual value 123. -/
theorem claim9_witness :
    AddressValue.getInternalID (AddressValue.getVirtualMemAddress 123)
        = 123
      ∧ AddressValue.isVirtualMemAddress
          (AddressValue.getVirtualMemAddress 123) = true
      ∧ AddressValue.getInternalID 123 = 123 :=
  ⟨((claim9_address_round_trip 123 123).1 (by norm_num)).1,
   ((claim9_address_round_trip 123 123).1 (by norm_num)).2,
   (claim9_address_round_trip 123 123).2 (by decide)⟩

/-! Lemmas about mismatched tags in the merge operations. -/

theorem join_error_of_mismatch (v w : AbstractValue)
    (hm : v.isInterval ≠ w.isInterval) :
    v.join w = .error "Cannot join values of different types" := by
  cases v <;> cases w <;>
    simp_all [AbstractValue.isInterval, AbstractValue.join]

theorem meet_error_of_mismatch (v w : AbstractValue)
    (hm : v.isInterval ≠ w.isInterval) :
    v.meet w = .error "Cannot meet values of different types" := by
  cases v <;> cases w <;>
    simp_all [AbstractValue.isInterval, AbstractValue.meet]

theorem join_error_msg (v w : AbstractValue) (e : String)
    (h : v.join w = .error e) :
    e = "Cannot join values of different types" := by
  cases v <;> cases w <;> simp_all [AbstractValue.join]

theorem dictJoin_ok_or_error (other : AVDict) : ∀ self : AVDict,
    (∃ r, dictJoin self other = .ok r)
    ∨ dictJoin self other
        = .error "Cannot join values of different types" := by
  induction other with
  | nil => exact fun self => .inl ⟨self, rfl⟩
  | cons kv rest ih =>
    intro self
    cases h1 : dictLookup self kv.1 with
    | none => simpa [dictJoin, h1] using ih (dictSet self kv.1 kv.2)
    | some v =>
      cases h2 : v.join kv.2 with
      | ok nv => simpa [dictJoin, h1, h2] using ih (dictSet self kv.1 nv)
      | error e =>
        right
        simp [dictJoin, h1, h2, join_error_msg v kv.2 e h2]

theorem dictJoin_mismatch (other : AVDict) :
    ∀ (self : AVDict) (k : Nat) (v w : AbstractValue),
    dictLookup self k = some v → dictLookup other k = some w →
    v.isInterval ≠ w.isInterval →
    dictJoin self other
      = .error "Cannot join values of different types" := by
  induction other with
  | nil =>
    intro self k v w _ h2 _
    simp [dictLookup] at h2
  | cons kv rest ih =>
    intro self k v w h1 h2 hm
    obtain ⟨k', w'⟩ := kv
    by_cases hk : k' = k
    · subst hk
      simp [dictLookup] at h2
      subst h2
      simp [dictJoin, h1, join_error_of_mismatch v w' hm]
    · simp only [dictLookup, hk, if_false] at h2
      cases h3 : dictLookup self k' with
      | none =>
        have hpre : dictLookup (dictSet self k' w') k = some v := by
          rw [dictLookup_dictSet_of_ne _ _ _ _ hk]
          exact h1
        simpa [dictJoin, h3] using
          ih (dictSet self k' w') k v w hpre h2 hm
      | some u =>
        cases h4 : u.join w' with
        | error e =>
          simp [dictJoin, h3, h4, join_error_msg u w' e h4]
        | ok nu =>
          have hpre : dictLookup (dictSet self k' nu) k = some v := by
            rw [dictLookup_dictSet_of_ne _ _ _ _ hk]
            exact h1
          simpa [dictJoin, h3, h4] using
            ih (dictSet self k' nu) k v w hpre h2 hm

theorem meetEntry_fst (other : AVDict) (kv x : Nat × AbstractValue)
    (h : meetEntry other kv = some x) : x.1 = kv.1 := by
  obtain ⟨kk, vv⟩ := kv
  cases hl : dictLookup other kk with
  | none => simp [meetEntry, hl] at h
  | some w =>
    cases vv with
    | interval i =>
      cases w with
      | interval j =>
        simp only [meetEntry, hl] at h
        split at h
        · cases h
        · cases h
          rfl
      | address b =>
        simp only [meetEntry, hl] at h
        cases h
        rfl
    | address a =>
      cases w with
      | interval j =>
        simp only [meetEntry, hl] at h
        cases h
        rfl
      | address b =>
        simp only [meetEntry, hl] at h
        split at h
        · cases h
        · cases h
          rfl

theorem meetEntry_mismatch (other : AVDict) (k : Nat)
    (v w : AbstractValue) (h2 : dictLookup other k = some w)
    (hm : v.isInterval ≠ w.isInterval) :
    meetEntry other (k, v) = some (k, v) := by
  cases v <;> cases w <;>
    simp_all [meetEntry, AbstractValue.isInterval]

theorem widenEntry_fst (other : AVDict) (kv x : Nat × AbstractValue)
    (h : widenEntry other kv = some x) : x.1 = kv.1 := by
  unfold widenEntry at h
  split at h
  · cases h
    rfl
  · split at h
    · cases h
      rfl
    · cases h
      rfl
    · cases h

theorem widenEntry_mismatch (other : AVDict) (k : Nat)
    (v w : AbstractValue) (h2 : dictLookup other k = some w)
    (hm : v.isInterval ≠ w.isInterval) :
    widenEntry other (k, v) = none := by
  cases v <;> cases w <;>
    simp_all [widenEntry, AbstractValue.isInterval]

theorem narrowEntry_fst (other : AVDict) (kv x : Nat × AbstractValue)
    (h : narrowEntry other kv = some x) : x.1 = kv.1 := by
  unfold narrowEntry at h
  split at h
  · cases h
    rfl
  · split at h
    · cases h
      rfl
    · cases h
      rfl
    · cases h

theorem narrowEntry_mismatch (other : AVDict) (k : Nat)
    (v w : AbstractValue) (h2 : dictLookup other k = some w)
    (hm : v.isInterval ≠ w.isInterval) :
    narrowEntry other (k, v) = none := by
  cases v <;> cases w <;>
    simp_all [narrowEntry, AbstractValue.isInterval]

theorem dictLookup_filterMap_none_of_entry
    (f : Nat × AbstractValue → Option (Nat × AbstractValue))
    (hf : ∀ kv x, f kv = some x → x.1 = kv.1) (d : AVDict) (k : Nat)
    (v : AbstractValue) (hnd : (d.map Prod.fst).Nodup)
    (h1 : dictLookup d k = some v) (hfk : f (k, v) = none) :
    dictLookup (d.filterMap f) k = none := by
  induction d with
  | nil => simp [dictLookup] at h1
  | cons kv rest ih =>
    obtain ⟨k', v'⟩ := kv
    simp only [List.map_cons, List.nodup_cons] at hnd
    by_cases hk : k' = k
    · subst hk
      simp [dictLookup] at h1
      subst h1
      rw [List.filterMap_cons, hfk]
      exact dictLookup_filterMap_eq_none f hf rest k' hnd.1
    · simp only [dictLookup, hk, if_false] at h1
      rw [List.filterMap_cons]
      cases h : f (k', v') with
      | none => exact ih hnd.2 h1
      | some y =>
        have hy := hf (k', v') y h
        obtain ⟨yk, yv⟩ := y
        simp only at hy
        subst hy
        simp [dictLookup, hk, ih hnd.2 h1]

theorem dictWiden_mismatch (self other : AVDict) (k : Nat)
    (v w : AbstractValue) (hnd : (self.map Prod.fst).Nodup)
    (h1 : dictLookup self k = some v) (h2 : dictLookup other k = some w)
    (hm : v.isInterval ≠ w.isInterval) :
    dictLookup (dictWiden self other) k = none := by
  have hc : dictContains self k = true := by simp [dictContains, h1]
  have hfm : dictLookup (self.filterMap (widenEntry other)) k = none :=
    dictLookup_filterMap_none_of_entry (widenEntry other)
      (widenEntry_fst other) self k v hnd h1
      (widenEntry_mismatch other k v w h2 hm)
  rw [dictWiden, dictLookup_append_of_none _ _ _ hfm]
  exact dictLookup_filter_not_contains self other k hc

theorem dictNarrow_mismatch (self other : AVDict) (k : Nat)
    (v w : AbstractValue) (hnd : (self.map Prod.fst).Nodup)
    (h1 : dictLookup self k = some v) (h2 : dictLookup other k = some w)
    (hm : v.isInterval ≠ w.isInterval) :
    dictLookup (dictNarrow self other) k = none := by
  have hc : dictContains self k = true := by simp [dictContains, h1]
  have hfm : dictLookup (self.filterMap (narrowEntry other)) k = none :=
    dictLookup_filterMap_none_of_entry (narrowEntry other)
      (narrowEntry_fst other) self k v hnd h1
      (narrowEntry_mismatch other k v w h2 hm)
  rw [dictNarrow, dictLookup_append_of_none _ _ _ hfm]
  exact dictLookup_filter_not_contains self other k hc

/-- Claim C5 (counterexample): `meetWith` on a key shared with differing
tags does not fail — it returns normally and keeps the receiver's old
value for the key, refuting "every join- or meet-sensitive operation
... including ... meetWith ... fails with a TypeMismatch error". -/
theorem claim5_counterexample :
    AbstractState.meetWith ⟨[(1, .address ⟨{5}⟩)], []⟩
        ⟨[(1, .interval ⟨some 0, some 1⟩)], []⟩
      = ⟨[(1, .address ⟨{5}⟩)], []⟩ := by decide

/-- Claim C5 (amended): `AbstractValue.join`/`meet` across differing
tags fail with the TypeMismatch `ValueError`, and `joinWith` propagates
it when a key shared by both states (in either store) holds values of
differing tags; `meetWith`, however, silently keeps the receiver's
existing value for such a key and raises nothing. -/
theorem claim5_type_mismatch (v w : AbstractValue) (s o : AbstractState)
    (k : Nat) :
    (v.isInterval ≠ w.isInterval →
      v.join w = .error "Cannot join values of different types"
      ∧ v.meet w = .error "Cannot meet values of different types")
    ∧ (∀ a b, dictLookup s.varToAbsVal k = some a →
        dictLookup o.varToAbsVal k = some b →
        a.isInterval ≠ b.isInterval →
        s.joinWith o = .error "Cannot join values of different types")
    ∧ (∀ a b, dictLookup s.addrToAbsVal k = some a →
        dictLookup o.addrToAbsVal k = some b →
        a.isInterval ≠ b.isInterval →
        s.joinWith o = .error "Cannot join values of different types")
    ∧ (∀ a b, dictLookup s.varToAbsVal k = some a →
        dictLookup o.varToAbsVal k = some b →
        a.isInterval ≠ b.isInterval →
        dictLookup (s.meetWith o).varToAbsVal k = some a) := by
  refine ⟨fun hm => ⟨join_error_of_mismatch v w hm,
      meet_error_of_mismatch v w hm⟩,
    fun a b h1 h2 hm => ?_, fun a b h1 h2 hm => ?_,
    fun a b h1 h2 hm => ?_⟩
  · have h := dictJoin_mismatch o.varToAbsVal s.varToAbsVal k a b h1 h2 hm
    unfold AbstractState.joinWith
    rw [h]
    rfl
  · have h :=
      dictJoin_mismatch o.addrToAbsVal s.addrToAbsVal k a b h1 h2 hm
    rcases dictJoin_ok_or_error o.varToAbsVal s.varToAbsVal with
      ⟨r, hr⟩ | hr
    · unfold AbstractState.joinWith
      rw [hr]
      show dictJoin s.addrToAbsVal o.addrToAbsVal >>= _ = _
      rw [h]
      rfl
    · unfold AbstractState.joinWith
      rw [hr]
      rfl
  · exact dictLookup_filterMap_self (meetEntry o.varToAbsVal)
      (meetEntry_fst o.varToAbsVal) s.varToAbsVal k a a h1
      (meetEntry_mismatch o.varToAbsVal k a b h2 hm)

/-- Claim C5 witness: concrete mismatches for the value-level join, the
state-level joinWith on both stores, and the meetWith keep-old
behavior. -/
theorem claim5_witness :
    AbstractValue.join (.interval ⟨some 1, some 2⟩) (.address ⟨∅⟩)
      = .error "Cannot join values of different types"
    ∧ AbstractValue.meet (.interval ⟨some 1, some 2⟩) (.address ⟨∅⟩)
        = .error "Cannot meet values of different types"
    ∧ AbstractState.joinWith ⟨[(1, .interval ⟨some 1, some 2⟩)], []⟩
        ⟨[(1, .address ⟨∅⟩)], []⟩
      = .error "Cannot join values of different types"
    ∧ AbstractState.joinWith ⟨[], [(3, .address ⟨∅⟩)]⟩
        ⟨[], [(3, .interval ⟨some 1, some 2⟩)]⟩
      = .error "Cannot join values of different types"
    ∧ dictLookup
        (AbstractState.meetWith ⟨[(1, .address ⟨{5}⟩)], []⟩
          ⟨[(1, .interval ⟨some 0, some 1⟩)], []⟩).varToAbsVal 1
      = some (.address ⟨{5}⟩) := by
  refine ⟨((claim5_type_mismatch (.interval ⟨some 1, some 2⟩)
      (.address ⟨∅⟩) ⟨[], []⟩ ⟨[], []⟩ 0).1 (by decide)).1,
    ((claim5_type_mismatch (.interval ⟨some 1, some 2⟩)
      (.address ⟨∅⟩) ⟨[], []⟩ ⟨[], []⟩ 0).1 (by decide)).2,
    (claim5_type_mismatch (.interval ⟨some 1, some 2⟩) (.address ⟨∅⟩)
      ⟨[(1, .interval ⟨some 1, some 2⟩)], []⟩
      ⟨[(1, .address ⟨∅⟩)], []⟩ 1).2.1 (.interval ⟨some 1, some 2⟩)
      (.address ⟨∅⟩) (by decide) (by decide) (by decide),
    (claim5_type_mismatch (.interval ⟨some 1, some 2⟩) (.address ⟨∅⟩)
      ⟨[], [(3, .address ⟨∅⟩)]⟩
      ⟨[], [(3, .interval ⟨some 1, some 2⟩)]⟩ 3).2.2.1 (.address ⟨∅⟩)
      (.interval ⟨some 1, some 2⟩) (by decide) (by decide) (by decide),
    (claim5_type_mismatch (.interval ⟨some 1, some 2⟩) (.address ⟨∅⟩)
      ⟨[(1, .address ⟨{5}⟩)], []⟩
      ⟨[(1, .interval ⟨some 0, some 1⟩)], []⟩ 1).2.2.2
      (.address ⟨{5}⟩) (.interval ⟨some 0, some 1⟩) (by decide)
      (by decide) (by decide)⟩

/-- Claim C10: in both maps of state `widening` and `narrowing`, a key
present in both operands whose two values have differing tags produces
no entry in the result — the operations are total (no error) and the
key disappears entirely. -/
theorem claim10_mismatched_tags_dropped (s o : AbstractState) (k : Nat)
    (v w : AbstractValue) :
    ((s.varToAbsVal.map Prod.fst).Nodup →
      dictLookup s.varToAbsVal k = some v →
      dictLookup o.varToAbsVal k = some w →
      v.isInterval ≠ w.isInterval →
      dictLookup (s.widening o).varToAbsVal k = none
      ∧ dictLookup (s.narrowing o).varToAbsVal k = none)
    ∧ ((s.addrToAbsVal.map Prod.fst).Nodup →
      dictLookup s.addrToAbsVal k = some v →
      dictLookup o.addrToAbsVal k = some w →
      v.isInterval ≠ w.isInterval →
      dictLookup (s.widening o).addrToAbsVal k = none
      ∧ dictLookup (s.narrowing o).addrToAbsVal k = none) :=
  ⟨fun hnd h1 h2 hm =>
    ⟨dictWiden_mismatch _ _ _ _ _ hnd h1 h2 hm,
     dictNarrow_mismatch _ _ _ _ _ hnd h1 h2 hm⟩,
   fun hnd h1 h2 hm =>
    ⟨dictWiden_mismatch _ _ _ _ _ hnd h1 h2 hm,
     dictNarrow_mismatch _ _ _ _ _ hnd h1 h2 hm⟩⟩

/-- Claim C10 witness: a variable-store key and an object-store key with
mismatched tags vanish from both widening and narrowing results. -/
theorem claim10_witness :
    dictLookup
        (AbstractState.widening
          ⟨[(1, .interval ⟨some 0, some 1⟩)], [(2, .address ⟨∅⟩)]⟩
          ⟨[(1, .address ⟨∅⟩)],
           [(2, .interval ⟨some 0, some 1⟩)]⟩).varToAbsVal 1 = none
    ∧ dictLookup
        (AbstractState.narrowing
          ⟨[(1, .interval ⟨some 0, some 1⟩)], [(2, .address ⟨∅⟩)]⟩
          ⟨[(1, .address ⟨∅⟩)],
           [(2, .interval ⟨some 0, some 1⟩)]⟩).varToAbsVal 1 = none
    ∧ dictLookup
        (AbstractState.widening
          ⟨[(1, .interval ⟨some 0, some 1⟩)], [(2, .address ⟨∅⟩)]⟩
          ⟨[(1, .address ⟨∅⟩)],
           [(2, .interval ⟨some 0, some 1⟩)]⟩).addrToAbsVal 2 = none
    ∧ dictLookup
        (AbstractState.narrowing
          ⟨[(1, .interval ⟨some 0, some 1⟩)], [(2, .address ⟨∅⟩)]⟩
          ⟨[(1, .address ⟨∅⟩)],
           [(2, .interval ⟨some 0, some 1⟩)]⟩).addrToAbsVal 2
        = none := by
  have h1 := (claim10_mismatched_tags_dropped
    ⟨[(1, .interval ⟨some 0, some 1⟩)], [(2, .address ⟨∅⟩)]⟩
    ⟨[(1, .address ⟨∅⟩)], [(2, .interval ⟨some 0, some 1⟩)]⟩ 1
    (.interval ⟨some 0, some 1⟩) (.address ⟨∅⟩)).1 (by decide)
    (by decide) (by decide) (by decide)
  have h2 := (claim10_mismatched_tags_dropped
    ⟨[(1, .interval ⟨some 0, some 1⟩)], [(2, .address ⟨∅⟩)]⟩
    ⟨[(1, .address ⟨∅⟩)], [(2, .interval ⟨some 0, some 1⟩)]⟩ 2
    (.address ⟨∅⟩) (.interval ⟨some 0, some 1⟩)).2 (by decide)
    (by decide) (by decide) (by decide)
  exact ⟨h1.1, h1.2, h2.1, h2.2⟩

/-! Widening helpers for the single-step-jump property. -/

/-- Spec-side predicate: other's lower bound has grown strictly past
self's in the widening direction (downward); an unbounded bound counts
as grown past any finite one, and nothing grows past an unbounded
self. -/
def grewPastLb : Option Int → Option Int → Bool
  | none, _ => false
  | some _, none => true
  | some a, some b => decide (b < a)

/-- Spec-side predicate: other's upper bound has grown strictly past
self's in the widening direction (upward). -/
def grewPastUb : Option Int → Option Int → Bool
  | none, _ => false
  | some _, none => true
  | some a, some b => decide (a < b)

theorem widening_char (a b : IntervalValue) (ha : a.is_bottom = false)
    (hb : b.is_bottom = false) :
    (a.widening b).lb = (if grewPastLb a.lb b.lb then none else a.lb)
    ∧ (a.widening b).ub
        = (if grewPastUb a.ub b.ub then none else a.ub) := by
  simp only [IntervalValue.widening, ha, hb, Bool.false_eq_true,
    if_false]
  constructor
  · cases a.lb <;> cases b.lb <;> simp [grewPastLb]
  · cases a.ub <;> cases b.ub <;> simp [grewPastUb]

theorem widening_absorb_left (a b : IntervalValue)
    (ha : a.is_bottom = true) : a.widening b = ⟨b.lb, b.ub⟩ := by
  simp [IntervalValue.widening, ha]

theorem widening_absorb_right (a b : IntervalValue)
    (ha : a.is_bottom = false) (hb : b.is_bottom = true) :
    a.widening b = ⟨a.lb, a.ub⟩ := by
  simp [IntervalValue.widening, ha, hb]

theorem widening_not_bottom (a b : IntervalValue)
    (ha : a.is_bottom = false) : (a.widening b).is_bottom = false := by
  by_cases hb : b.is_bottom
  · rw [widening_absorb_right a b ha hb]
    exact ha
  · have hb' : b.is_bottom = false := by simpa using hb
    obtain ⟨hl, hu⟩ := widening_char a b ha hb'
    by_cases hgl : grewPastLb a.lb b.lb = true
    · have : (a.widening b).lb = none := by rw [hl]; simp [hgl]
      unfold IntervalValue.is_bottom
      rw [this]
    · have hgl' : grewPastLb a.lb b.lb = false := by simpa using hgl
      have hlb : (a.widening b).lb = a.lb := by rw [hl]; simp [hgl']
      by_cases hgu : grewPastUb a.ub b.ub = true
      · have hub : (a.widening b).ub = none := by rw [hu]; simp [hgu]
        unfold IntervalValue.is_bottom
        rw [hlb, hub]
        cases a.lb <;> rfl
      · have hgu' : grewPastUb a.ub b.ub = false := by simpa using hgu
        have hub : (a.widening b).ub = a.ub := by rw [hu]; simp [hgu']
        unfold IntervalValue.is_bottom at ha ⊢
        rw [hlb, hub]
        exact ha

theorem widening_lb_step (a b : IntervalValue)
    (ha : a.is_bottom = false) :
    (a.widening b).lb = a.lb ∨ (a.widening b).lb = none := by
  by_cases hb : b.is_bottom
  · left
    rw [widening_absorb_right a b ha hb]
  · have hb' : b.is_bottom = false := by simpa using hb
    rw [(widening_char a b ha hb').1]
    by_cases hgl : grewPastLb a.lb b.lb = true <;> simp [hgl]

theorem widening_ub_step (a b : IntervalValue)
    (ha : a.is_bottom = false) :
    (a.widening b).ub = a.ub ∨ (a.widening b).ub = none := by
  by_cases hb : b.is_bottom
  · left
    rw [widening_absorb_right a b ha hb]
  · have hb' : b.is_bottom = false := by simpa using hb
    rw [(widening_char a b ha hb').2]
    by_cases hgu : grewPastUb a.ub b.ub = true <;> simp [hgu]

theorem widening_lb_none (a b : IntervalValue)
    (ha : a.is_bottom = false) (h : a.lb = none) :
    (a.widening b).lb = none := by
  rcases widening_lb_step a b ha with h2 | h2
  · rw [h2, h]
  · exact h2

theorem widening_ub_none (a b : IntervalValue)
    (ha : a.is_bottom = false) (h : a.ub = none) :
    (a.widening b).ub = none := by
  rcases widening_ub_step a b ha with h2 | h2
  · rw [h2, h]
  · exact h2

/-- Claim C4 (counterexample): a monotonically growing interval sequence
(each step contains the previous one) whose accumulated widening is
unchanged by the second application but changes at the third — refuting
"stabilizes within at most 2 applications". -/
theorem claim4_counterexample :
    IntervalValue.contain ⟨some (-1), some 0⟩ ⟨some 0, some 0⟩ = true
    ∧ IntervalValue.contain ⟨some (-2), some 0⟩ ⟨some (-1), some 0⟩
        = true
    ∧ IntervalValue.contain ⟨some (-2), some 1⟩ ⟨some (-2), some 0⟩
        = true
    ∧ (((⟨some 0, some 0⟩ : IntervalValue).widening
          ⟨some (-1), some 0⟩).widening ⟨some (-2), some 0⟩
        = (⟨some 0, some 0⟩ : IntervalValue).widening
            ⟨some (-1), some 0⟩)
    ∧ ((((⟨some 0, some 0⟩ : IntervalValue).widening
          ⟨some (-1), some 0⟩).widening ⟨some (-2), some 0⟩).widening
            ⟨some (-2), some 1⟩
        ≠ ((⟨some 0, some 0⟩ : IntervalValue).widening
            ⟨some (-1), some 0⟩).widening ⟨some (-2), some 0⟩) := by
  decide

/-- Claim C4 (amended): per side, widening returns a's bound when b's
bound has not grown strictly past it in the widening direction and
unbounded when it has; a bottom operand is absorbed; and along any
accumulated widening sequence starting from a non-bottom interval each
side either still equals its initial bound or has become unbounded, an
unbounded side stays unbounded, and the accumulator never becomes
bottom — so each bound changes at most once, though the change need not
happen within the first 2 applications. -/
theorem claim4_widening_single_step :
    (∀ a b : IntervalValue, a.is_bottom = false → b.is_bottom = false →
      (a.widening b).lb = (if grewPastLb a.lb b.lb then none else a.lb)
      ∧ (a.widening b).ub
          = (if grewPastUb a.ub b.ub then none else a.ub))
    ∧ (∀ a b : IntervalValue, a.is_bottom = true →
        a.widening b = ⟨b.lb, b.ub⟩)
    ∧ (∀ a b : IntervalValue, a.is_bottom = false →
        b.is_bottom = true → a.widening b = ⟨a.lb, a.ub⟩)
    ∧ (∀ w a : Nat → IntervalValue, (w 0).is_bottom = false →
        (∀ n, w (n + 1) = (w n).widening (a (n + 1))) →
        ∀ n, (w n).is_bottom = false
          ∧ ((w n).lb = (w 0).lb ∨ (w n).lb = none)
          ∧ ((w n).ub = (w 0).ub ∨ (w n).ub = none)
          ∧ ((w n).lb = none → (w (n + 1)).lb = none)
          ∧ ((w n).ub = none → (w (n + 1)).ub = none)) := by
  refine ⟨widening_char, widening_absorb_left, widening_absorb_right,
    fun w a h0 hs n => ?_⟩
  induction n with
  | zero =>
    refine ⟨h0, Or.inl rfl, Or.inl rfl, fun h => ?_, fun h => ?_⟩
    · rw [hs 0]
      exact widening_lb_none _ _ h0 h
    · rw [hs 0]
      exact widening_ub_none _ _ h0 h
  | succ n ih =>
    have hnb : (w (n + 1)).is_bottom = false := by
      rw [hs n]
      exact widening_not_bottom _ _ ih.1
    refine ⟨hnb, ?_, ?_, fun h => ?_, fun h => ?_⟩
    · rw [hs n]
      rcases widening_lb_step (w n) (a (n + 1)) ih.1 with h | h
      · rw [h]
        exact ih.2.1
      · exact Or.inr h
    · rw [hs n]
      rcases widening_ub_step (w n) (a (n + 1)) ih.1 with h | h
      · rw [h]
        exact ih.2.2.1
      · exact Or.inr h
    · rw [hs (n + 1)]
      exact widening_lb_none _ _ hnb h
    · rw [hs (n + 1)]
      exact widening_ub_none _ _ hnb h

/-- Claim C4 witness: the single-step jump at `[1,5].widening([0,9])`
and the chain invariants for a constant widening sequence. -/
theorem claim4_witness :
    ((⟨some 1, some 5⟩ : IntervalValue).widening ⟨some 0, some 9⟩).lb
        = none
    ∧ ((⟨some 1, some 5⟩ : IntervalValue).widening ⟨some 0, some 9⟩).ub
        = none
    ∧ (IntervalValue.widening IntervalValue.bottom ⟨some 2, some 3⟩
        = ⟨some 2, some 3⟩)
    ∧ IntervalValue.is_bottom ⟨some 2, some 3⟩ = false := by
  refine ⟨?_, ?_, ?_, ?_⟩
  · rw [(claim4_widening_single_step.1 ⟨some 1, some 5⟩ ⟨some 0, some 9⟩
      (by decide) (by decide)).1]
    decide
  · rw [(claim4_widening_single_step.1 ⟨some 1, some 5⟩ ⟨some 0, some 9⟩
      (by decide) (by decide)).2]
    decide
  · rw [claim4_widening_single_step.2.1 IntervalValue.bottom
      ⟨some 2, some 3⟩ (by decide)]
  · exact (claim4_widening_single_step.2.2.2
      (fun _ => ⟨some 2, some 3⟩) (fun _ => ⟨some 2, some 3⟩)
      (by decide)
      (fun n => by
        show (⟨some 2, some 3⟩ : IntervalValue)
          = IntervalValue.widening ⟨some 2, some 3⟩ ⟨some 2, some 3⟩
        decide) 5).1
